import Mathlib

/-!
Verification of certstreamScanner: a shallow embedding in Lean 4 of the
certificate-transparency monitoring pipeline (src/cert_monitor.py), the
MongoDB-backed index merge engine (src/db_manager.py), and the read API
(src/flask_api.py), together with proofs of the specification's claims.

Modelling conventions:
* Python string methods (`lower`, `strip`, `startswith`, `endswith`,
  `split`, `join`, `lstrip`, slicing, the substring operator `in`) are
  modelled by structurally recursive functions over the character list of a
  `String`, mirroring their Python semantics on the ASCII domain data the
  program handles.
* Python dict lookups `d.get(k)` / `d.get(k, default)` on optional JSON
  fields become `Option` values; a field that can be present-but-null is an
  `Option (Option _)` where the outer layer is key presence and the inner
  layer null versus value.
* Python exceptions become `Except String _` (the string names the Python
  exception) or, for operations the code wraps in try/except, an explicit
  failure oracle parameter.
* The MongoDB collection becomes a function `String → Option DomainRecord`
  keyed by the unique `domain` field; Python `set` becomes `Finset String`.
* `datetime.datetime.fromtimestamp` is modelled by the `TimeIssued` type:
  either the wall-clock fallback or a conversion from an exact rational
  epoch-seconds value; possible conversion failure (OverflowError etc.) is
  a `ℚ → Bool` oracle parameter.
-/

namespace CertScan

/-! ## Python string primitives, over character lists -/

/-- Python `s.lower()` (per-character lowering). -/
def pyLower (s : String) : String :=
  String.mk (s.data.map Char.toLower)

/-- Python `s.strip()`: drop leading and trailing whitespace. -/
def pyStrip (s : String) : String :=
  String.mk (((s.data.dropWhile Char.isWhitespace).reverse.dropWhile
    Char.isWhitespace).reverse)

/-- Python `s.startswith(p)`. -/
def pyStartsWith (s p : String) : Bool :=
  p.data.isPrefixOf s.data

/-- Python slicing `s[n:]`. -/
def pyDropStr (s : String) (n : ℕ) : String :=
  String.mk (s.data.drop n)

/-- Python `s.endswith(suf)`. -/
def pyEndsWith (s suf : String) : Bool :=
  suf.data.isSuffixOf s.data

/-- Helper for Python `s.split(sep)` on character lists: always returns at
least one (possibly empty) piece. -/
def splitChars (sep : Char) : List Char → List (List Char)
  | [] => [[]]
  | c :: t =>
    let r := splitChars sep t
    if c = sep then [] :: r
    else
      match r with
      | [] => [[c]]
      | h :: t2 => (c :: h) :: t2

/-- Python `s.split(sep)` for a one-character separator. -/
def pySplit (s : String) (sep : Char) : List String :=
  (splitChars sep s.data).map String.mk

/-- Python `sep.join(parts)`. -/
def pyJoin (sep : String) (parts : List String) : String :=
  match parts with
  | [] => ""
  | h :: t => t.foldl (fun acc p => acc ++ sep ++ p) h

/-- Python `s.lstrip(c)` for a one-character strip set. -/
def pyLStrip (s : String) (c : Char) : String :=
  String.mk (s.data.dropWhile (fun x => x = c))

/-- Python's substring operator `needle in hay` on character lists. -/
def charsContain (hay needle : List Char) : Bool :=
  needle.isPrefixOf hay ||
    match hay with
    | [] => false
    | _ :: t => charsContain t needle

/-- Python's substring operator `needle in hay` on strings. -/
def strContains (hay needle : String) : Bool :=
  charsContain hay.data needle.data

/-! ## Domain Filter (CertMonitor._clean_domain, CertMonitor._is_target_domain) -/

/-- `CertMonitor._clean_domain`: strip a leading wildcard label, then
`.strip().lower()`.  Note the wildcard test happens before trimming, as in
the source. -/
def clean_domain (domain : String) : String :=
  let d := if pyStartsWith domain "*." then pyDropStr domain 2 else domain
  pyLower (pyStrip d)

/-- `CertMonitor._is_target_domain`: TLD-suffix check, then excluded
substring check, then blacklist exact-match check, each short-circuiting. -/
def is_target_domain (israeli_tld_suffixes exclude_suffixes blacklisted_domains :
    List String) (domain_lower : String) : Bool :=
  let is_israeli_tld := israeli_tld_suffixes.any (fun tld => pyEndsWith domain_lower tld)
  if ¬ is_israeli_tld then false
  else
    let is_excluded := exclude_suffixes.any (fun suffix => strContains domain_lower suffix)
    if is_excluded then false
    else
      let is_blacklisted := blacklisted_domains.contains domain_lower
      if is_blacklisted then false
      else true

/-! ## Base-Domain Aggregator (CertMonitor._extract_base_domain) -/

/-- Labels needed to keep for a suffix: `len(suffix.lstrip('.').split('.')) + 1`. -/
def neededParts (suffix : String) : ℕ :=
  (pySplit (pyLStrip suffix '.') '.').length + 1

/-- `CertMonitor._extract_base_domain`: the first configured suffix that the
domain ends with and that leaves at least `neededParts` labels determines
the base (`'.'.join(parts[-needed:])`); otherwise the domain is its own
base. -/
def extract_base_domain (israeli_tld_suffixes : List String) (domain : String) : String :=
  let parts := pySplit domain '.'
  match israeli_tld_suffixes.find? (fun suffix =>
      pyEndsWith domain suffix && decide (parts.length ≥ neededParts suffix)) with
  | some suffix => pyJoin "." (parts.drop (parts.length - neededParts suffix))
  | none => domain

/-! ## Event Normalizer (CertMonitor._format_message) -/

/-- Result of the `datetime` computation for `time_issued`: either the
`datetime.datetime.utcnow()` fallback or `fromtimestamp` applied to an exact
rational number of epoch seconds. -/
inductive TimeIssued where
  | wallClock : TimeIssued
  | fromSeconds : ℚ → TimeIssued
deriving DecidableEq

/-- The epoch-seconds argument passed to `fromtimestamp`: raw value divided
by 1000 exactly when `len(str(raw))` exceeds 10.  The raw `not_before`
field is modelled as a natural number. -/
def rawEpochSeconds (n : ℕ) : ℚ :=
  if (Nat.repr n).length > 10 then (n : ℚ) / 1000 else (n : ℚ)

/-- The `time_issued` computation in `CertMonitor._format_message`:
`utcnow()` when `not_before` is absent or falsy (zero), otherwise
`fromtimestamp` on `rawEpochSeconds`, falling back to `utcnow()` if the
conversion raises (`convFails`). -/
def compute_time_issued (convFails : ℚ → Bool) (not_before : Option ℕ) : TimeIssued :=
  match not_before with
  | none => .wallClock
  | some n =>
    if n = 0 then .wallClock
    else if convFails (rawEpochSeconds n) then .wallClock
    else .fromSeconds (rawEpochSeconds n)

/-- One entry of the `seen_in` list; `name` is an optional key. -/
structure SeenEntry where
  name : Option String
deriving DecidableEq

/-- The `subject` sub-dictionary of a chain entry; `CN` is an optional key. -/
structure SubjectRec where
  CN : Option String
deriving DecidableEq

/-- One entry of the certificate chain; `subject` is an optional key
(defaulted to an empty dictionary by the source's lookup). -/
structure ChainEntry where
  subject : Option SubjectRec
deriving DecidableEq

/-- The `leaf_cert` dictionary: every field the source reads is optional. -/
structure LeafCert where
  all_domains : Option (List String)
  not_before : Option ℕ
  serial_number : Option String
deriving DecidableEq

/-- The `data` dictionary of a message.  `chain` conflates absent and null
(both are falsy under the source's `if chain and len(chain) > 0` test);
`seen_in` keeps the two layers apart because the source's
`data.get('seen_in', [{}])[0]` treats key-absent (default used) differently
from present-but-null (raises). -/
structure MsgData where
  leaf_cert : Option LeafCert
  chain : Option (List ChainEntry)
  seen_in : Option (Option (List SeenEntry))
deriving DecidableEq

/-- A raw CertStream message as far as the source reads it. -/
structure RawMessage where
  message_type : Option String
  data : Option MsgData
deriving DecidableEq

def emptyLeafCert : LeafCert := ⟨none, none, none⟩

def emptyMsgData : MsgData := ⟨none, none, none⟩

def emptySubject : SubjectRec := ⟨none⟩

/-- The normalized event record returned by `CertMonitor._format_message`. -/
structure CertEvent where
  domain_names : List String
  time_issued : TimeIssued
  issuer_cn : String
  log_name : String
  cert_id : String
deriving DecidableEq

/-- `lst[0].get('name', 'N/A')` on a `seen_in`-shaped list: indexing an
empty list raises IndexError. -/
def firstSeenName : List SeenEntry → Except String String
  | [] => .error "IndexError"
  | e :: _ => .ok (e.name.getD "N/A")

/-- `data.get('seen_in', [{}])[0].get('name', 'N/A')`: an absent key uses
the default singleton list of one empty dictionary; a present-but-null
value is subscripted and raises TypeError; a present list is subscripted
directly. -/
def log_name_of : Option (Option (List SeenEntry)) → Except String String
  | none => firstSeenName [⟨none⟩]
  | some none => .error "TypeError"
  | some (some l) => firstSeenName l

/-- `CertMonitor._format_message`.  All lookups other than the `seen_in`
subscription are exception-free; the result is an error exactly when that
subscription raises. -/
def format_message (convFails : ℚ → Bool) (m : RawMessage) : Except String CertEvent :=
  let data := m.data.getD emptyMsgData
  let cert := data.leaf_cert.getD emptyLeafCert
  let domain_names := cert.all_domains.getD []
  let time_issued := compute_time_issued convFails cert.not_before
  let issuer_cn :=
    match data.chain with
    | some (c :: _) => ((c.subject.getD emptySubject).CN).getD "N/A"
    | _ => "N/A"
  match log_name_of data.seen_in with
  | .error e => .error e
  | .ok log_name =>
    .ok ⟨domain_names, time_issued, issuer_cn, log_name, cert.serial_number.getD "N/A"⟩

/-! ## Index Merge Engine (DBManager.save_domain) -/

/-- One persistent record of the index, as written by `DBManager.save_domain`.
`subdomains` is a mathematical set, the content of the stored Python list
whose order MongoDB/Python leaves unspecified; `last_seen` is an abstract
wall-clock tick supplied by the caller. -/
structure DomainRecord where
  domain : String
  subdomains : Finset String
  time_issued : TimeIssued
  issuer_cn : String
  log_name : String
  cert_id : String
  last_seen : ℕ
deriving DecidableEq

/-- The MongoDB collection with its unique index on `domain`: at most one
record per key, modelled as a partial map. -/
def Store : Type := String → Option DomainRecord

/-- The empty collection. -/
def emptyStore : Store := fun _ => none

/-- `DBManager.save_domain` (the non-failing path): find the existing record
for `domain`; if present, replace its subdomain set by the union with the
incoming ones and overwrite the metadata fields; otherwise insert a fresh
record with the deduplicated incoming subdomains.  `now` models
`datetime.utcnow()` for `last_seen`. -/
def save_domain (st : Store) (domain : String) (subdomains : List String)
    (time_issued : TimeIssued) (issuer_cn log_name cert_id : String) (now : ℕ) : Store :=
  fun d =>
    if d = domain then
      match st domain with
      | some existing =>
        some { domain := domain
               subdomains := existing.subdomains ∪ subdomains.toFinset
               time_issued := time_issued
               issuer_cn := issuer_cn
               log_name := log_name
               cert_id := cert_id
               last_seen := now }
      | none =>
        some { domain := domain
               subdomains := subdomains.toFinset
               time_issued := time_issued
               issuer_cn := issuer_cn
               log_name := log_name
               cert_id := cert_id
               last_seen := now }
    else st d

/-- The subdomain set currently stored for `d` (empty when no record exists). -/
def subsAt (st : Store) (d : String) : Finset String :=
  match st d with
  | some r => r.subdomains
  | none => ∅

/-- The arguments of one `save_domain` call. -/
structure MergeArgs where
  domain : String
  subdomains : List String
  time_issued : TimeIssued
  issuer_cn : String
  log_name : String
  cert_id : String
  now : ℕ

/-- Apply one `save_domain` call described by `MergeArgs`. -/
def applyMerge (st : Store) (a : MergeArgs) : Store :=
  save_domain st a.domain a.subdomains a.time_issued a.issuer_cn a.log_name a.cert_id a.now

/-- Apply a sequence of `save_domain` calls in order. -/
def applyMerges (st : Store) (ms : List MergeArgs) : Store :=
  ms.foldl applyMerge st

/-! ## Per-event aggregation and the save loop (CertMonitor.process_certificate) -/

/-- One iteration of the `for raw_domain in data['domain_names']` loop of
`process_certificate` over the insertion-ordered dictionary `valid_domains`
(modelled as an association list): clean the name, drop it unless it is a
target, ensure its base has an entry, and append the cleaned name as a
subdomain when it differs from its base. -/
def step_domain (israeli_tld_suffixes exclude_suffixes blacklisted_domains : List String)
    (batch : List (String × List String)) (raw_domain : String) :
    List (String × List String) :=
  let clean := clean_domain raw_domain
  if ¬ is_target_domain israeli_tld_suffixes exclude_suffixes blacklisted_domains clean
  then batch
  else
    let base := extract_base_domain israeli_tld_suffixes clean
    let batch1 := if batch.any (fun p => p.1 = base) then batch else batch ++ [(base, [])]
    if clean = base then batch1
    else batch1.map (fun p => if p.1 = base then (p.1, p.2 ++ [clean]) else p)

/-- The whole filtering/aggregation loop of `process_certificate`: fold
`step_domain` over the event's domain names, starting from the empty
dictionary. -/
def process_domains (israeli_tld_suffixes exclude_suffixes blacklisted_domains :
    List String) (domain_names : List String) : List (String × List String) :=
  domain_names.foldl
    (step_domain israeli_tld_suffixes exclude_suffixes blacklisted_domains) []

/-- The save loop of `process_certificate`: each `save_domain` call sits in
its own try/except, so a failing call (the oracle `failP` says which base
domains the store raises on) leaves the store unchanged and the loop
continues with the next base domain. -/
def save_batch (failP : String → Bool) (st : Store) (batch : List (String × List String))
    (time_issued : TimeIssued) (issuer_cn log_name cert_id : String) (now : ℕ) : Store :=
  batch.foldl
    (fun acc p =>
      if failP p.1 then acc
      else save_domain acc p.1 p.2 time_issued issuer_cn log_name cert_id now)
    st

/-- `CertMonitor.process_certificate`: ignore non-`certificate_update`
messages; normalize (which can raise, aborting the event), aggregate, and
run the save loop. -/
def process_certificate (israeli_tld_suffixes exclude_suffixes blacklisted_domains :
    List String) (convFails : ℚ → Bool) (failP : String → Bool) (now : ℕ)
    (st : Store) (m : RawMessage) : Except String Store :=
  if m.message_type = some "certificate_update" then
    match format_message convFails m with
    | .error e => .error e
    | .ok ev =>
      .ok (save_batch failP st
        (process_domains israeli_tld_suffixes exclude_suffixes blacklisted_domains
          ev.domain_names)
        ev.time_issued ev.issuer_cn ev.log_name ev.cert_id now)
  else .ok st

/-! ## Read Service (DBManager.get_all_domains, DomainAPI get_domains route) -/

/-- A JSON value, the common currency of `json.dumps`/`json.loads` between
`DBManager.get_all_domains` and the Flask route. -/
inductive JVal where
  | null : JVal
  | bool : Bool → JVal
  | num : ℤ → JVal
  | str : String → JVal
  | arr : List JVal → JVal
  | obj : List (String × JVal) → JVal

/-- `DBManager.get_all_domains`, as the JSON value its returned string
encodes.  The store read `list(collection.find(...).sort('time_issued', -1))`
together with the ISO-8601 conversion of its datetime fields is abstracted
into the `readResult` input: either the serialized record list or the raised
error's message.  The whole body sits in try/except: a store failure is
swallowed and the function returns the JSON object with the single key
`error` — it does not re-raise. -/
def get_all_domains (readResult : Except String (List JVal)) : JVal :=
  match readResult with
  | .ok domains => JVal.arr domains
  | .error e => JVal.obj [("error", JVal.str e)]

/-- Python `len` as the Flask route applies it to the value parsed back by
`json.loads`: defined on lists, dictionaries and strings, raises (none)
otherwise. -/
def pyLen : JVal → Option ℕ
  | .arr l => some l.length
  | .obj l => some l.length
  | .str s => some s.length
  | _ => none

/-- The `GET /api/domains` handler `get_domains` in `DomainAPI._setup_routes`:
parse the string from `get_all_domains` and answer
`200 (success true, count len(domains), data domains)`; only an exception
inside the handler itself (here: `len` on an unsized value) reaches the
`500 (success false, error str(e))` branch. -/
def get_domains (readResult : Except String (List JVal)) : ℕ × JVal :=
  let v := get_all_domains readResult
  match pyLen v with
  | some n => (200, JVal.obj [("success", JVal.bool true), ("count", JVal.num n),
      ("data", v)])
  | none => (500, JVal.obj [("success", JVal.bool false),
      ("error", JVal.str "TypeError")])

/-! ## Concrete messages used in counterexamples and witnesses -/

/-- A certificate_update whose `seen_in` key is present and holds the empty
list. -/
def msgEmptySeen : RawMessage :=
  ⟨some "certificate_update",
   some ⟨some ⟨some ["sub.example.co.il"], some 1700000000, some "abc123"⟩,
         none, some (some [])⟩⟩

/-- A certificate_update whose `seen_in` key is present and holds null. -/
def msgNullSeen : RawMessage :=
  ⟨some "certificate_update",
   some ⟨some ⟨some ["sub.example.co.il"], some 1700000000, some "abc123"⟩,
         none, some none⟩⟩

/-- A certificate_update with no `seen_in` key at all. -/
def msgNoSeen : RawMessage :=
  ⟨some "certificate_update",
   some ⟨some ⟨some ["example.co.il"], some 1700000000, some "abc123"⟩,
         none, none⟩⟩

/-! ## Helper lemmas about the merge engine -/

theorem save_domain_subs_target (st : Store) (domain : String) (subs : List String)
    (ti : TimeIssued) (ic ln cid : String) (now : ℕ) :
    subs.toFinset ⊆ subsAt (save_domain st domain subs ti ic ln cid now) domain := by
  unfold save_domain subsAt
  simp only [if_pos rfl]
  cases st domain with
  | some existing => simp
  | none => simp

theorem save_domain_mono (st : Store) (domain : String) (subs : List String)
    (ti : TimeIssued) (ic ln cid : String) (now : ℕ) (d : String) :
    subsAt st d ⊆ subsAt (save_domain st domain subs ti ic ln cid now) d := by
  unfold save_domain subsAt
  by_cases h : d = domain
  · subst h
    simp only [if_pos rfl]
    cases st d with
    | some existing => simp
    | none => simp
  · simp [h]

theorem save_domain_target_isSome (st : Store) (domain : String) (subs : List String)
    (ti : TimeIssued) (ic ln cid : String) (now : ℕ) :
    save_domain st domain subs ti ic ln cid now domain ≠ none := by
  unfold save_domain
  simp only [if_pos rfl]
  cases st domain <;> simp

theorem save_domain_preserves_isSome (st : Store) (domain : String) (subs : List String)
    (ti : TimeIssued) (ic ln cid : String) (now : ℕ) (d : String)
    (h : st d ≠ none) :
    save_domain st domain subs ti ic ln cid now d ≠ none := by
  unfold save_domain
  by_cases hd : d = domain
  · subst hd
    simp only [if_pos rfl]
    cases st d <;> simp
  · simpa [hd] using h

theorem save_batch_cons (failP : String → Bool) (st : Store) (p : String × List String)
    (t : List (String × List String)) (ti : TimeIssued) (ic ln cid : String) (now : ℕ) :
    save_batch failP st (p :: t) ti ic ln cid now =
      save_batch failP
        (if failP p.1 then st else save_domain st p.1 p.2 ti ic ln cid now)
        t ti ic ln cid now := rfl

theorem save_batch_mono (failP : String → Bool) (batch : List (String × List String))
    (ti : TimeIssued) (ic ln cid : String) (now : ℕ) (d : String) :
    ∀ st : Store, subsAt st d ⊆ subsAt (save_batch failP st batch ti ic ln cid now) d := by
  induction batch with
  | nil => intro st; simp [save_batch]
  | cons p t ih =>
    intro st
    rw [save_batch_cons]
    refine Finset.Subset.trans ?_ (ih _)
    by_cases hf : failP p.1 <;> simp [hf, save_domain_mono]

theorem save_batch_preserves_isSome (failP : String → Bool)
    (batch : List (String × List String)) (ti : TimeIssued) (ic ln cid : String)
    (now : ℕ) (d : String) :
    ∀ st : Store, st d ≠ none →
      save_batch failP st batch ti ic ln cid now d ≠ none := by
  induction batch with
  | nil => intro st h; simpa [save_batch] using h
  | cons p t ih =>
    intro st h
    rw [save_batch_cons]
    refine ih _ ?_
    by_cases hf : failP p.1
    · simpa [hf] using h
    · simpa [hf] using save_domain_preserves_isSome st p.1 p.2 ti ic ln cid now d h

/-! ## C3: monotonic subdomains -/

/-- C3: for every base domain and every sequence of merges, the stored
subdomain set after merge n+1 is a superset of the set after merge n: a
merge may add members to the subdomains set but never removes one.  (Stated
for every domain `d`, whether or not the extra merge targets it.) -/
theorem subdomains_monotone (st : Store) (ms : List MergeArgs) (n : ℕ) (d : String) :
    subsAt (applyMerges st (ms.take n)) d ⊆ subsAt (applyMerges st (ms.take (n + 1))) d := by
  rw [List.take_succ]
  unfold applyMerges
  rw [List.foldl_append]
  cases ms[n]? with
  | none => simp
  | some a =>
    exact save_domain_mono _ a.domain a.subdomains
      a.time_issued a.issuer_cn a.log_name a.cert_id a.now d

/-! ## C4: idempotence of merge -/

/-- C4: calling save_domain twice with the same domain, subdomains and
metadata produces the same DomainRecord as calling it once: the subdomain
set is unchanged by the second call and the metadata fields (time_issued,
issuer_cn, log_name, cert_id) of both results equal the call's values. -/
theorem merge_idempotent (st : Store) (domain : String) (subs : List String)
    (ti : TimeIssued) (ic ln cid : String) (n1 n2 : ℕ) :
    ∃ r1 r2,
      save_domain st domain subs ti ic ln cid n1 domain = some r1 ∧
      save_domain (save_domain st domain subs ti ic ln cid n1)
        domain subs ti ic ln cid n2 domain = some r2 ∧
      r2.subdomains = r1.subdomains ∧
      r1.time_issued = ti ∧ r1.issuer_cn = ic ∧ r1.log_name = ln ∧ r1.cert_id = cid ∧
      r2.time_issued = ti ∧ r2.issuer_cn = ic ∧ r2.log_name = ln ∧ r2.cert_id = cid ∧
      r1.last_seen = n1 ∧ r2.last_seen = n2 := by
  unfold save_domain
  simp only [if_pos rfl]
  cases st domain with
  | some existing =>
    refine ⟨_, _, rfl, rfl, ?_, rfl, rfl, rfl, rfl, rfl, rfl, rfl, rfl, rfl, rfl⟩
    simp [Finset.union_assoc]
  | none =>
    refine ⟨_, _, rfl, rfl, ?_, rfl, rfl, rfl, rfl, rfl, rfl, rfl, rfl, rfl, rfl⟩
    simp

/-! ## C9: per-domain save failures do not abort the batch -/

/-- C9: for every FilteredBatch, a failure while merging one base domain
(the oracle `failP` tells which save_domain calls the store fails) leaves
every remaining non-failing base domain in the same batch merged: its
subdomains from this batch are in the final store and its record exists.
The save loop is a total function, so no exception propagates out of it. -/
theorem save_failure_isolated (failP : String → Bool)
    (batch : List (String × List String)) (ti : TimeIssued) (ic ln cid : String)
    (now : ℕ) (d : String) (subs : List String) (hmem : (d, subs) ∈ batch)
    (hok : failP d = false) :
    ∀ st : Store,
      subs.toFinset ⊆ subsAt (save_batch failP st batch ti ic ln cid now) d ∧
      save_batch failP st batch ti ic ln cid now d ≠ none := by
  induction batch with
  | nil => cases hmem
  | cons p t ih =>
    intro st
    rw [save_batch_cons]
    rcases List.mem_cons.mp hmem with heq | ht
    · rw [← heq, hok]
      simp only [Bool.false_eq_true, if_false]
      constructor
      · exact Finset.Subset.trans
          (save_domain_subs_target st d subs ti ic ln cid now)
          (save_batch_mono failP t ti ic ln cid now d _)
      · exact save_batch_preserves_isSome failP t ti ic ln cid now d _
          (save_domain_target_isSome st d subs ti ic ln cid now)
    · exact ih ht _

/-! ## Aggregator invariants -/

theorem appendEntry_inv (base : String) (l : List (String × List String))
    (hinv : ∀ q ∈ l, q.1 ∉ q.2) :
    ∀ p ∈ l ++ [(base, ([] : List String))], p.1 ∉ p.2 := by
  intro p hp
  rcases List.mem_append.mp hp with h | h
  · exact hinv p h
  · rw [List.mem_singleton] at h
    subst h
    simp

theorem mapAppend_inv (base clean : String) (hne : ¬ clean = base)
    (l : List (String × List String)) (hinv : ∀ q ∈ l, q.1 ∉ q.2) :
    ∀ p ∈ l.map (fun q => if q.1 = base then (q.1, q.2 ++ [clean]) else q),
      p.1 ∉ p.2 := by
  intro p hp
  rcases List.mem_map.mp hp with ⟨q, hq, hfq⟩
  by_cases hqb : q.1 = base
  · rw [if_pos hqb] at hfq
    subst hfq
    simp only [List.mem_append, List.mem_singleton]
    push_neg
    refine ⟨hinv q hq, ?_⟩
    rw [hqb]
    exact fun h => hne h.symm
  · rw [if_neg hqb] at hfq
    subst hfq
    exact hinv q hq

theorem step_domain_inv (tlds excl bl : List String)
    (batch : List (String × List String)) (raw : String)
    (hinv : ∀ p ∈ batch, p.1 ∉ p.2) :
    ∀ p ∈ step_domain tlds excl bl batch raw, p.1 ∉ p.2 := by
  intro p hp
  simp only [step_domain] at hp
  split at hp
  · exact hinv p hp
  · split at hp
    · split at hp
      · exact hinv p hp
      · exact appendEntry_inv _ batch hinv p hp
    · next hcb =>
        split at hp
        · exact mapAppend_inv _ _ hcb batch hinv p hp
        · exact mapAppend_inv _ _ hcb _ (appendEntry_inv _ batch hinv) p hp

theorem fold_domains_inv (tlds excl bl : List String) (names : List String) :
    ∀ batch, (∀ p ∈ batch, p.1 ∉ p.2) →
      ∀ p ∈ names.foldl (step_domain tlds excl bl) batch, p.1 ∉ p.2 := by
  induction names with
  | nil => intro batch h; simpa using h
  | cons n t ih =>
    intro batch h
    rw [List.foldl_cons]
    exact ih _ (step_domain_inv tlds excl bl batch n h)

/-! ## C8: apex-only events -/

/-- C8: a name equal to its own base domain never contributes a subdomain
entry (first conjunct, for every aggregated batch), and an event whose only
surviving domain name equals its own base domain still produces an entry
for that base with an empty subdomain list, whose merge creates or updates
a DomainRecord for it without adding any subdomain (second conjunct). -/
theorem apex_only_event :
    (∀ tlds excl bl names p,
      p ∈ process_domains tlds excl bl names → p.1 ∉ p.2) ∧
    (∀ tlds excl bl (raw : String) (st : Store) (ti : TimeIssued)
        (ic ln cid : String) (now : ℕ),
      is_target_domain tlds excl bl (clean_domain raw) = true →
      extract_base_domain tlds (clean_domain raw) = clean_domain raw →
      process_domains tlds excl bl [raw] = [(clean_domain raw, [])] ∧
      save_domain st (clean_domain raw) [] ti ic ln cid now (clean_domain raw) ≠ none ∧
      subsAt (save_domain st (clean_domain raw) [] ti ic ln cid now) (clean_domain raw)
        = subsAt st (clean_domain raw)) := by
  constructor
  · intro tlds excl bl names p hp
    exact fold_domains_inv tlds excl bl names [] (by simp) p hp
  · intro tlds excl bl raw st ti ic ln cid now htgt hbase
    refine ⟨?_, save_domain_target_isSome st _ [] ti ic ln cid now, ?_⟩
    · simp [process_domains, step_domain, htgt, hbase]
    · unfold subsAt save_domain
      simp only [if_pos rfl]
      cases st (clean_domain raw) <;> simp

/-- Witness for C8 at the apex-only input `example.co.il` with suffix set
`[".co.il"]`. -/
theorem apex_only_event_witness :
    is_target_domain [".co.il"] [] [] (clean_domain "example.co.il") = true ∧
    extract_base_domain [".co.il"] (clean_domain "example.co.il") =
      clean_domain "example.co.il" ∧
    (process_domains [".co.il"] [] [] ["example.co.il"] =
        [(clean_domain "example.co.il", [])] ∧
      save_domain emptyStore (clean_domain "example.co.il") [] TimeIssued.wallClock
        "N/A" "N/A" "N/A" 0 (clean_domain "example.co.il") ≠ none ∧
      subsAt (save_domain emptyStore (clean_domain "example.co.il") []
          TimeIssued.wallClock "N/A" "N/A" "N/A" 0) (clean_domain "example.co.il")
        = subsAt emptyStore (clean_domain "example.co.il")) :=
  ⟨by decide, by decide,
   apex_only_event.2 [".co.il"] [] [] "example.co.il" emptyStore TimeIssued.wallClock
     "N/A" "N/A" "N/A" 0 (by decide) (by decide)⟩

/-! ## C9 witness -/

/-- Witness for C9: the store fails on `a.co.il`, yet `b.co.il` from the
same batch is still merged. -/
theorem save_failure_isolated_witness :
    ("b.co.il", ["s.b.co.il"]) ∈
      [("a.co.il", ["s.a.co.il"]), ("b.co.il", ["s.b.co.il"])] ∧
    (fun s => s == "a.co.il") "b.co.il" = false ∧
    (["s.b.co.il"].toFinset ⊆ subsAt (save_batch (fun s => s == "a.co.il") emptyStore
        [("a.co.il", ["s.a.co.il"]), ("b.co.il", ["s.b.co.il"])]
        TimeIssued.wallClock "N/A" "N/A" "N/A" 0) "b.co.il" ∧
      save_batch (fun s => s == "a.co.il") emptyStore
        [("a.co.il", ["s.a.co.il"]), ("b.co.il", ["s.b.co.il"])]
        TimeIssued.wallClock "N/A" "N/A" "N/A" 0 "b.co.il" ≠ none) :=
  ⟨by decide, by decide,
   save_failure_isolated (fun s => s == "a.co.il")
     [("a.co.il", ["s.a.co.il"]), ("b.co.il", ["s.b.co.il"])]
     TimeIssued.wallClock "N/A" "N/A" "N/A" 0 "b.co.il" ["s.b.co.il"]
     (by decide) (by decide) emptyStore⟩

/-! ## C6: filter correctness on the spec's example -/

/-- C6: with suffix set `[".co.il"]`, empty exclusion set and empty
blacklist, the raw name `*.sub.example.co.il` cleans to
`sub.example.co.il`, is classified as a target domain, has base domain
`example.co.il`, and the cleaned name (not the base) is recorded as the
subdomain of that base. -/
theorem filter_correctness_example :
    clean_domain "*.sub.example.co.il" = "sub.example.co.il" ∧
    is_target_domain [".co.il"] [] [] "sub.example.co.il" = true ∧
    extract_base_domain [".co.il"] "sub.example.co.il" = "example.co.il" ∧
    process_domains [".co.il"] [] [] ["*.sub.example.co.il"] =
      [("example.co.il", ["sub.example.co.il"])] := by
  refine ⟨by decide, by decide, by decide, by decide⟩

/-! ## C7: order and content of the three target checks -/

/-- C7: the target test applies its three checks in order with
short-circuit on first failure: a domain ending with a configured suffix
but containing an excluded substring is rejected regardless of the
blacklist; a domain equal to a blacklist entry is rejected even when it
passes the suffix and exclusion checks; and the test is extensionally the
conjunction suffix-match AND not-excluded AND not-blacklisted. -/
theorem target_checks_order :
    (∀ tlds excl bl (d : String),
      (tlds.any fun t => pyEndsWith d t) = true →
      (excl.any fun s => strContains d s) = true →
      is_target_domain tlds excl bl d = false) ∧
    (∀ tlds excl bl (d : String), bl.contains d = true →
      is_target_domain tlds excl bl d = false) ∧
    (∀ tlds excl bl (d : String),
      is_target_domain tlds excl bl d =
        ((tlds.any fun t => pyEndsWith d t) &&
          !(excl.any fun s => strContains d s) && !(bl.contains d))) := by
  refine ⟨?_, ?_, ?_⟩
  · intro tlds excl bl d hsuf hexc
    simp [is_target_domain, hsuf, hexc]
  · intro tlds excl bl d hbl
    by_cases hsuf : (tlds.any fun t => pyEndsWith d t) = true
    · by_cases hexc : (excl.any fun s => strContains d s) = true
      · simp [is_target_domain, hsuf, hexc]
      · simp only [is_target_domain]
        simp [hsuf, hexc]
        simpa using hbl
    · simp [is_target_domain, hsuf]
  · intro tlds excl bl d
    by_cases h1 : (tlds.any fun t => pyEndsWith d t) = true <;>
      by_cases h2 : (excl.any fun s => strContains d s) = true <;>
        by_cases h3 : bl.contains d = true <;>
          simp [is_target_domain, h1, h2, h3]

/-- Witness for C7: `www.gov.co.il` matches the `.co.il` suffix but
contains the excluded substring `gov` and is rejected; `bad.co.il` passes
suffix and exclusion but equals a blacklist entry and is rejected. -/
theorem target_checks_order_witness :
    is_target_domain [".co.il"] ["gov"] [] "www.gov.co.il" = false ∧
    is_target_domain [".co.il"] [] ["bad.co.il"] "bad.co.il" = false :=
  ⟨target_checks_order.1 [".co.il"] ["gov"] [] "www.gov.co.il" (by decide) (by decide),
   target_checks_order.2.1 [".co.il"] [] ["bad.co.il"] "bad.co.il" (by decide)⟩

/-! ## C5: timestamp unit disambiguation and conversion fallback -/

/-- C5: a present nonzero raw not_before timestamp is interpreted as
milliseconds (divided by 1000) exactly when its decimal-digit length
exceeds 10 and as seconds otherwise — 1700000000 (10 digits) is seconds,
1700000000000 (13 digits) is milliseconds and both denote the same epoch
second — and if the conversion fails for any reason the event's
time_issued falls back to the wall clock and the event is not failed. -/
theorem timestamp_unit_disambiguation :
    (∀ (f : ℚ → Bool) (n : ℕ), n ≠ 0 →
      compute_time_issued f (some n) =
        if f (rawEpochSeconds n) then TimeIssued.wallClock
        else TimeIssued.fromSeconds (rawEpochSeconds n)) ∧
    (∀ n : ℕ, (Nat.repr n).length > 10 → rawEpochSeconds n = (n : ℚ) / 1000) ∧
    (∀ n : ℕ, ¬ (Nat.repr n).length > 10 → rawEpochSeconds n = (n : ℚ)) ∧
    compute_time_issued (fun _ => false) (some 1700000000) =
      TimeIssued.fromSeconds ((1700000000 : ℚ)) ∧
    compute_time_issued (fun _ => false) (some 1700000000000) =
      TimeIssued.fromSeconds ((1700000000000 : ℚ) / 1000) ∧
    ((1700000000000 : ℚ) / 1000 = ((1700000000 : ℚ))) := by
  refine ⟨?_, ?_, ?_, ?_, ?_, by norm_num⟩
  · intro f n hn
    simp only [compute_time_issued]
    rw [if_neg hn]
  · intro n h
    unfold rawEpochSeconds
    rw [if_pos h]
  · intro n h
    unfold rawEpochSeconds
    rw [if_neg h]
  · simp [compute_time_issued, rawEpochSeconds]
    intro h
    exact absurd h (by decide)
  · simp [compute_time_issued, rawEpochSeconds]
    intro h
    exact absurd h (by decide)

/-- Witness for C5: a failing conversion for a present nonzero timestamp
falls back to the wall clock. -/
theorem timestamp_unit_disambiguation_witness :
    compute_time_issued (fun _ => true) (some 5) = TimeIssued.wallClock := by
  have h := timestamp_unit_disambiguation.1 (fun _ => true) 5 (by decide)
  simpa using h

/-! ## C10: not_before equal to 0 is treated as absent -/

/-- C10: because presence of not_before is tested by Python truthiness, a
raw timestamp equal to 0 is treated exactly like an absent one: time_issued
becomes the current wall-clock time, never the epoch. -/
theorem not_before_zero_is_wallclock :
    (∀ f : ℚ → Bool, compute_time_issued f (some 0) = TimeIssued.wallClock) ∧
    (∀ f : ℚ → Bool, compute_time_issued f (some 0) = compute_time_issued f none) :=
  ⟨fun _ => rfl, fun _ => rfl⟩

/-! ## C2: events with null or empty seen_in -/

/-- C2 counterexample: an event whose seen_in is present as the empty list
makes normalization raise IndexError, and one whose seen_in is present as
null makes it raise TypeError; in both cases event processing aborts with
the exception instead of yielding the sentinel. -/
theorem seen_in_null_or_empty_raises :
    process_certificate [".co.il"] [] [] (fun _ => false) (fun _ => false) 0
      emptyStore msgEmptySeen = Except.error "IndexError" ∧
    process_certificate [".co.il"] [] [] (fun _ => false) (fun _ => false) 0
      emptyStore msgNullSeen = Except.error "TypeError" ∧
    format_message (fun _ => false) msgEmptySeen = Except.error "IndexError" ∧
    format_message (fun _ => false) msgNullSeen = Except.error "TypeError" :=
  ⟨rfl, rfl, rfl, rfl⟩

/-- C2 (amended): when the seen_in key is absent, normalization does not
raise and yields the sentinel "N/A" for log_name. -/
theorem seen_in_absent_defaults (f : ℚ → Bool) (m : RawMessage)
    (h : (m.data.getD emptyMsgData).seen_in = none) :
    ∃ ev, format_message f m = Except.ok ev ∧ ev.log_name = "N/A" := by
  simp only [format_message, h]
  exact ⟨_, rfl, rfl⟩

/-- Witness for the amended C2 at a concrete message with no seen_in key. -/
theorem seen_in_absent_defaults_witness :
    ∃ ev, format_message (fun _ => false) msgNoSeen = Except.ok ev ∧
      ev.log_name = "N/A" :=
  seen_in_absent_defaults (fun _ => false) msgNoSeen rfl

/-! ## C1: the read path on a store failure -/

/-- C1 divergence, evaluated: when the store read raises (message "boom"),
`get_all_domains` swallows the error and returns the object with key
`error`, so the API route answers 200 with success true and count 1 — not
the 500 structured failure the specification promises.  The second
conjunct: every store-read failure produces status 200. -/
theorem read_failure_reported_as_success :
    get_domains (Except.error "boom") =
      (200, JVal.obj [("success", JVal.bool true), ("count", JVal.num 1),
        ("data", JVal.obj [("error", JVal.str "boom")])]) ∧
    ∀ e : String, (get_domains (Except.error e)).1 = 200 :=
  ⟨rfl, fun _ => rfl⟩

end CertScan
